import Mathlib

/-!
Verification development for the EduAgenticChatBot repository.

The definitions below are a shallow embedding of the TypeScript core:
the analyzer (`analyzer.ts`), the insight contract validator and fallback
generator (`insights.ts`), the memory store (`memory_store.ts`), the run
orchestrator (`run_with_tool.ts`) and the HTTP single-flight guard
(`http_server.ts`).  JavaScript numbers are modelled as rationals, strings
as Lean strings, and the external JSON parser as an oracle parameter.
-/

set_option linter.unusedVariables false

/-- Whitespace test used by the embedding of JavaScript `String.prototype.trim`. -/
def isSpaceChar (c : Char) : Bool :=
  c = ' ' || c = '\t' || c = '\n' || c = '\r'

/-- Drop whitespace from both ends of a character list. -/
def trimChars (cs : List Char) : List Char :=
  ((cs.dropWhile isSpaceChar).reverse.dropWhile isSpaceChar).reverse

/-- Embedding of JavaScript `String.prototype.trim`. -/
def jsTrim (s : String) : String :=
  ⟨trimChars s.data⟩

/-- Closed performance-trend enum from `types.ts` / `validator.ts` (`parseTrend`). -/
inductive PerformanceTrend where
  | improving
  | stable
  | declining
  deriving DecidableEq, Repr

/-- One `(subject, score)` grade entry (`Grade` in `types.ts`). -/
structure Grade where
  subject : String
  score : ℚ
  deriving DecidableEq, Repr

/-- Validated student record (`Student` in `types.ts`, produced by `validator.ts`). -/
structure Student where
  id : String
  name : String
  email : String
  grades : List Grade
  participationScore : ℚ
  assignmentCompletionRate : ℚ
  teacherNotes : String
  performanceTrend : PerformanceTrend
  lastAssessmentDate : String
  deriving DecidableEq, Repr

/-- Derived metrics block (`StudentMetrics` in `types.ts`). -/
structure StudentMetrics where
  averageScore : ℚ
  highestSubjects : List Grade
  lowestSubjects : List Grade
  participationScore : ℚ
  assignmentCompletionRate : ℚ
  needsAttention : Bool
  deriving DecidableEq, Repr

/-- Closed risk bucket (`StudentAnalysis["riskLevel"]`). -/
inductive RiskLevel where
  | low
  | medium
  | high
  deriving DecidableEq, Repr

/-- Per-student analysis result (`StudentAnalysis` in `types.ts`). -/
structure StudentAnalysis where
  student : Student
  metrics : StudentMetrics
  strengths : List String
  improvementAreas : List String
  riskLevel : RiskLevel
  deriving DecidableEq, Repr

/-- Rounding to two decimals, as in `Math.round(x * 100) / 100` (analyzer.ts `average`).
`Math.round` rounds half away toward positive infinity, matching Mathlib `round`. -/
def round2 (x : ℚ) : ℚ :=
  ((round (x * 100) : ℤ) : ℚ) / 100

/-- Arithmetic mean rounded to two decimals (`average` in analyzer.ts), with the
same divide-by-zero guard returning 0 on an empty list. -/
def average (scores : List ℚ) : ℚ :=
  if scores.length = 0 then 0
  else round2 (scores.sum / (scores.length : ℚ))

/-- Stable insertion used to model `Array.prototype.sort` with comparator
`(a, b) => score(b) - score(a)`: a later-arriving element goes after every
element with a greater-or-equal score. -/
def insertGradeDesc (g : Grade) : List Grade → List Grade
  | [] => [g]
  | y :: ys => if g.score ≤ y.score then y :: insertGradeDesc g ys else g :: y :: ys

/-- Stable descending sort by score (the copy produced by `[...items].sort`). -/
def sortGradesDesc (items : List Grade) : List Grade :=
  items.foldl (fun acc g => insertGradeDesc g acc) []

/-- Stable insertion for the ascending comparator `(a, b) => score(a) - score(b)`. -/
def insertGradeAsc (g : Grade) : List Grade → List Grade
  | [] => [g]
  | y :: ys => if y.score ≤ g.score then y :: insertGradeAsc g ys else g :: y :: ys

/-- Stable ascending sort by score. -/
def sortGradesAsc (items : List Grade) : List Grade :=
  items.foldl (fun acc g => insertGradeAsc g acc) []

/-- Embedding of `topN` from analyzer.ts: sort a copy descending, take `n`. -/
def topN (items : List Grade) (n : Nat) : List Grade :=
  (sortGradesDesc items).take n

/-- Embedding of `bottomN` from analyzer.ts: sort a copy ascending, take `n`. -/
def bottomN (items : List Grade) (n : Nat) : List Grade :=
  (sortGradesAsc items).take n

/-- Embedding of `determineRisk` from analyzer.ts, branch for branch. -/
def determineRisk (metrics : StudentMetrics) (trend : PerformanceTrend) : RiskLevel :=
  if metrics.averageScore < 70 ∨ metrics.participationScore ≤ 4 ∨
      metrics.assignmentCompletionRate < 70 ∨ trend = PerformanceTrend.declining then
    RiskLevel.high
  else if metrics.averageScore < 80 ∨ metrics.participationScore ≤ 6 ∨
      metrics.assignmentCompletionRate < 85 then
    RiskLevel.medium
  else
    RiskLevel.low

/-- Strength statements pushed by `analyzeStudent` (analyzer.ts), in source
order; a conditional append models each guarded `push`. -/
def studentStrengthList (averageScore : ℚ) (student : Student) : List String :=
  (if averageScore ≥ 85 then ["Strong overall academic performance"] else []) ++
  (if student.participationScore ≥ 8 then ["Consistent class participation"] else []) ++
  (if student.assignmentCompletionRate ≥ 90 then ["High assignment completion rate"] else []) ++
  (if student.performanceTrend = PerformanceTrend.improving then
      ["Recent performance trend is improving"] else [])

/-- Improvement-area statements pushed by `analyzeStudent` (analyzer.ts), in
source order. -/
def studentImprovementList (averageScore : ℚ) (lowestSubjects : List Grade)
    (student : Student) : List String :=
  (if averageScore < 75 then ["Overall grade average needs improvement"] else []) ++
  (if student.participationScore ≤ 6 then ["Increase class participation"] else []) ++
  (if student.assignmentCompletionRate < 85 then ["Improve assignment completion rate"] else []) ++
  (if student.performanceTrend = PerformanceTrend.declining then
      ["Address recent performance decline"] else []) ++
  (if lowestSubjects.length > 0 then
      ["Focus on weaker subjects: " ++ ", ".intercalate (lowestSubjects.map (fun g => g.subject))]
    else [])

/-- Embedding of `analyzeStudent` from analyzer.ts. -/
def analyzeStudent (student : Student) : StudentAnalysis :=
  let averageScore := average (student.grades.map (fun g => g.score))
  let highestSubjects := topN student.grades 2
  let lowestSubjects := bottomN student.grades 2
  let metrics : StudentMetrics :=
    { averageScore := averageScore
      highestSubjects := highestSubjects
      lowestSubjects := lowestSubjects
      participationScore := student.participationScore
      assignmentCompletionRate := student.assignmentCompletionRate
      needsAttention :=
        decide (averageScore < 75) || decide (student.assignmentCompletionRate < 80) ||
          decide (student.performanceTrend = PerformanceTrend.declining) }
  { student := student
    metrics := metrics
    strengths := studentStrengthList averageScore student
    improvementAreas := studentImprovementList averageScore lowestSubjects student
    riskLevel := determineRisk metrics student.performanceTrend }

/-- C1: for every validated Student, `analyzeStudent` classifies risk by the
top-down thresholds of `determineRisk`: high when average < 70 or
participation ≤ 4 or completion < 70 or trend is declining; else medium when
average < 80 or participation ≤ 6 or completion < 85; else low.  In
particular a declining trend always yields high risk. -/
theorem analyzeStudent_risk_thresholds (s : Student) :
    (analyzeStudent s).riskLevel =
      (if (analyzeStudent s).metrics.averageScore < 70 ∨
          (analyzeStudent s).metrics.participationScore ≤ 4 ∨
          (analyzeStudent s).metrics.assignmentCompletionRate < 70 ∨
          s.performanceTrend = PerformanceTrend.declining then RiskLevel.high
        else if (analyzeStudent s).metrics.averageScore < 80 ∨
            (analyzeStudent s).metrics.participationScore ≤ 6 ∨
            (analyzeStudent s).metrics.assignmentCompletionRate < 85 then RiskLevel.medium
        else RiskLevel.low) ∧
    (s.performanceTrend = PerformanceTrend.declining →
      (analyzeStudent s).riskLevel = RiskLevel.high) := by
  constructor
  · rfl
  · intro h
    simp [analyzeStudent, determineRisk, h]

/-- Sample declining student used to witness the risk-classification theorem
(the spec example: scores 90 and 70, participation 5, completion 60). -/
def sampleDecliningStudent : Student :=
  { id := "s1"
    name := "Avery"
    email := "avery@example.com"
    grades := [{ subject := "math", score := 90 }, { subject := "science", score := 70 }]
    participationScore := 5
    assignmentCompletionRate := 60
    teacherNotes := ""
    performanceTrend := PerformanceTrend.declining
    lastAssessmentDate := "2024-01-01" }

/-- Witness for C1: a concrete declining student is classified high risk. -/
theorem analyzeStudent_risk_thresholds_holds :
    sampleDecliningStudent.performanceTrend = PerformanceTrend.declining ∧
      (analyzeStudent sampleDecliningStudent).riskLevel = RiskLevel.high :=
  ⟨rfl, (analyzeStudent_risk_thresholds sampleDecliningStudent).2 rfl⟩

/-- State-passing embedding of `topN`: `[...items].sort(cmp).slice(0, n)` sorts a
spread copy, so the array observed by the caller afterwards (second component)
is the original, untouched array. -/
def topNFrame (items : List Grade) (n : Nat) : List Grade × List Grade :=
  ((sortGradesDesc items).take n, items)

/-- State-passing embedding of `bottomN`, same copy-before-sort pattern. -/
def bottomNFrame (items : List Grade) (n : Nat) : List Grade × List Grade :=
  ((sortGradesAsc items).take n, items)

/-- State-passing embedding of `analyzeStudent`: the student's grades array is
threaded through each call that receives it, and the second component is the
student record as observable after the call returns. -/
def analyzeStudentFrame (student : Student) : StudentAnalysis × Student :=
  let scores := student.grades.map (fun g => g.score)
  let averageScore := average scores
  let (highestSubjects, gradesAfterTop) := topNFrame student.grades 2
  let (lowestSubjects, gradesAfterBottom) := bottomNFrame gradesAfterTop 2
  let metrics : StudentMetrics :=
    { averageScore := averageScore
      highestSubjects := highestSubjects
      lowestSubjects := lowestSubjects
      participationScore := student.participationScore
      assignmentCompletionRate := student.assignmentCompletionRate
      needsAttention :=
        decide (averageScore < 75) || decide (student.assignmentCompletionRate < 80) ||
          decide (student.performanceTrend = PerformanceTrend.declining) }
  ({ student := student
     metrics := metrics
     strengths := studentStrengthList averageScore student
     improvementAreas := studentImprovementList averageScore lowestSubjects student
     riskLevel := determineRisk metrics student.performanceTrend },
   { student with grades := gradesAfterBottom })

/-- C10: `analyzeStudent` does not mutate its argument.  In the state-passing
model the student observed after the call (grades order and contents included)
is exactly the input, and the returned analysis embeds that same record. -/
theorem analyzeStudent_no_mutation (s : Student) :
    analyzeStudentFrame s = (analyzeStudent s, s) ∧
      (analyzeStudent s).student = s ∧
      (analyzeStudentFrame s).2.grades = s.grades := by
  refine ⟨rfl, rfl, rfl⟩

/-- Insight payload for one student (`StudentInsights` in `types.ts`). -/
structure StudentInsights where
  positiveObservation : String
  strengths : List String
  improvementAreas : List String
  strategies : List String
  nextStepGoal : String
  encouragement : String
  deriving DecidableEq, Repr

/-- Optional teacher preference data (`TeacherPreferences`); only the two
fields read by insights.ts are modelled. -/
structure TeacherPreferences where
  preferredStrategies : Option (List String)
  classGoals : Option (List String)
  deriving DecidableEq, Repr

/-- One `{ name, reason }` attention entry of the teacher insight payload. -/
structure AttentionEntry where
  name : String
  reason : String
  deriving DecidableEq, Repr

/-- Insight payload for the class (`TeacherInsights` in `types.ts`). -/
structure TeacherInsights where
  classOverview : String
  strengths : List String
  attentionNeeded : List AttentionEntry
  nextSteps : List String
  deriving DecidableEq, Repr

/-- Tagged validation result (`ValidationResult<T>` in insights.ts). -/
inductive VResult (α : Type) where
  | ok (value : α)
  | err (errors : List String)
  deriving DecidableEq, Repr

/-- True on the success constructor. -/
def VResult.isOk {α : Type} : VResult α → Bool
  | VResult.ok _ => true
  | VResult.err _ => false

/-- Error list carried by a result (empty on success). -/
def VResult.errorList {α : Type} : VResult α → List String
  | VResult.ok _ => []
  | VResult.err es => es

/-- JSON value tree, the possible outputs of the runtime `JSON.parse`. -/
inductive Json where
  | null
  | bool (b : Bool)
  | num (value : ℚ)
  | str (s : String)
  | arr (items : List Json)
  | obj (fields : List (String × Json))
  deriving Repr

/-- JavaScript property read on an object literal: the last duplicate key wins,
a missing key reads as `undefined` (here `none`). -/
def getField (fields : List (String × Json)) (key : String) : Option Json :=
  ((fields.filter (fun f => f.1 == key)).getLast?).map (fun f => f.2)

/-- JavaScript check `typeof parsed === "object" && parsed !== null`: arrays
pass the `typeof` test but named property reads on them yield `undefined`,
modelled as an empty field list. -/
def jsObjectFields : Json → Option (List (String × Json))
  | Json.obj fields => some fields
  | Json.arr _ => some []
  | _ => none

/-- Embedding of `safeString` from insights.ts: accept only strings, trim,
reject empty, silently truncate beyond `maxLen`.  `none` input models an
`undefined` property read. -/
def safeString (value : Option Json) (maxLen : Nat) : Option String :=
  match value with
  | some (Json.str s) =>
    let trimmed := jsTrim s
    if trimmed = "" then none
    else if maxLen < trimmed.length then some (trimmed.take maxLen) else some trimmed
  | _ => none

/-- Embedding of `normalizeStringArray` from insights.ts: drop non-string and
empty entries, fail below the minimum, silently cap at the maximum. -/
def normalizeStringArray (value : Option Json) (minLen maxLen : Nat) (label : String) :
    VResult (List String) :=
  match value with
  | some (Json.arr items) =>
    let cleaned := items.filterMap (fun item => safeString (some item) 180)
    if cleaned.length < minLen then
      VResult.err [label ++ " must include at least " ++ toString minLen ++ " item(s)"]
    else
      VResult.ok (cleaned.take maxLen)
  | _ => VResult.err [label ++ " must be an array"]

/-- First index of a character, as in `String.prototype.indexOf`. -/
def charIndexOf (cs : List Char) (c : Char) : Option Nat :=
  cs.findIdx? (fun x => x == c)

/-- Last index of a character, as in `String.prototype.lastIndexOf`. -/
def charLastIndexOf (cs : List Char) (c : Char) : Option Nat :=
  match cs.reverse.findIdx? (fun x => x == c) with
  | none => none
  | some i => some (cs.length - 1 - i)

/-- Embedding of `extractJsonObject` from insights.ts: slice from the first
`{` through the last `}`, or `null` when absent or ill-ordered. -/
def extractJsonObject (text : String) : Option String :=
  let cs := text.data
  match charIndexOf cs '{', charLastIndexOf cs '}' with
  | some start, some stop =>
    if stop ≤ start then none
    else some ⟨(cs.drop start).take (stop + 1 - start)⟩
  | _, _ => none

/-- Error accumulation across all student insight fields (insights.ts): one
message per missing or invalid required field, collected in source order
without short-circuiting. -/
def studentInsightErrors (record : List (String × Json)) : List String :=
  (if (safeString (getField record "positiveObservation") 220).isNone then
      ["positiveObservation must be a non-empty string"] else []) ++
  (if (safeString (getField record "nextStepGoal") 200).isNone then
      ["nextStepGoal must be a non-empty string"] else []) ++
  (if (safeString (getField record "encouragement") 200).isNone then
      ["encouragement must be a non-empty string"] else []) ++
  (normalizeStringArray (getField record "strengths") 1 3 "strengths").errorList ++
  (normalizeStringArray (getField record "improvementAreas") 1 2 "improvementAreas").errorList ++
  (normalizeStringArray (getField record "strategies") 2 3 "strategies").errorList

/-- Field-by-field validation of a parsed student insight object: return the
collected errors when any exist, the typed payload otherwise (with the
defensive re-check of the three array results, as in the source). -/
def validateStudentRecord (record : List (String × Json)) : VResult StudentInsights :=
  if (studentInsightErrors record).isEmpty then
    match normalizeStringArray (getField record "strengths") 1 3 "strengths",
        normalizeStringArray (getField record "improvementAreas") 1 2 "improvementAreas",
        normalizeStringArray (getField record "strategies") 2 3 "strategies" with
    | VResult.ok st, VResult.ok ia, VResult.ok sg =>
      VResult.ok
        { positiveObservation := (safeString (getField record "positiveObservation") 220).getD ""
          strengths := st
          improvementAreas := ia
          strategies := sg
          nextStepGoal := (safeString (getField record "nextStepGoal") 200).getD ""
          encouragement := (safeString (getField record "encouragement") 200).getD "" }
    | _, _, _ => VResult.err ["Invalid student insights payload"]
  else VResult.err (studentInsightErrors record)

/-- Embedding of `parseStudentInsights` from insights.ts.  The runtime
`JSON.parse` is passed in as an oracle returning `none` on a parse error. -/
def parseStudentInsights (raw : String) (jsonParse : String → Option Json) :
    VResult StudentInsights :=
  match extractJsonObject raw with
  | none => VResult.err ["No JSON object found in response"]
  | some jsonCandidate =>
    match jsonParse jsonCandidate with
    | none => VResult.err ["Invalid JSON in response"]
    | some parsed =>
      match jsObjectFields parsed with
      | none => VResult.err ["Response JSON must be an object"]
      | some record => validateStudentRecord record

/-- Per-entry validation of the `attentionNeeded` array in
`parseTeacherInsights`: valid entries and indexed errors accumulate
independently, in source order. -/
def collectAttention : List Json → Nat → List AttentionEntry × List String
  | [], _ => ([], [])
  | item :: rest, index =>
    let tail := collectAttention rest (index + 1)
    match jsObjectFields item with
    | none =>
      (tail.1, ("attentionNeeded[" ++ toString index ++ "] must be an object") :: tail.2)
    | some entry =>
      match safeString (getField entry "name") 80, safeString (getField entry "reason") 160 with
      | some name, some reason => ({ name := name, reason := reason } :: tail.1, tail.2)
      | _, _ =>
        (tail.1, ("attentionNeeded[" ++ toString index ++ "] must include name and reason") :: tail.2)

/-- The `attentionNeeded` validation of `parseTeacherInsights`: entries and
indexed errors, or a single type error when the field is not an array. -/
def teacherAttentionResult (record : List (String × Json)) :
    List AttentionEntry × List String :=
  match getField record "attentionNeeded" with
  | some (Json.arr items) => collectAttention items 0
  | _ => (([] : List AttentionEntry), ["attentionNeeded must be an array"])

/-- Error accumulation across all teacher insight fields, in source order. -/
def teacherInsightErrors (record : List (String × Json)) : List String :=
  (if (safeString (getField record "classOverview") 240).isNone then
      ["classOverview must be a non-empty string"] else []) ++
  (normalizeStringArray (getField record "strengths") 1 4 "strengths").errorList ++
  (normalizeStringArray (getField record "nextSteps") 2 4 "nextSteps").errorList ++
  (teacherAttentionResult record).2

/-- Field-by-field validation of a parsed teacher insight object. -/
def validateTeacherRecord (record : List (String × Json)) : VResult TeacherInsights :=
  if (teacherInsightErrors record).isEmpty then
    match normalizeStringArray (getField record "strengths") 1 4 "strengths",
        normalizeStringArray (getField record "nextSteps") 2 4 "nextSteps" with
    | VResult.ok st, VResult.ok ns =>
      VResult.ok
        { classOverview := (safeString (getField record "classOverview") 240).getD ""
          strengths := st
          attentionNeeded := (teacherAttentionResult record).1
          nextSteps := ns }
    | _, _ => VResult.err ["Invalid teacher insights payload"]
  else VResult.err (teacherInsightErrors record)

/-- Embedding of `parseTeacherInsights` from insights.ts. -/
def parseTeacherInsights (raw : String) (jsonParse : String → Option Json) :
    VResult TeacherInsights :=
  match extractJsonObject raw with
  | none => VResult.err ["No JSON object found in response"]
  | some jsonCandidate =>
    match jsonParse jsonCandidate with
    | none => VResult.err ["Invalid JSON in response"]
    | some parsed =>
      match jsObjectFields parsed with
      | none => VResult.err ["Response JSON must be an object"]
      | some record => validateTeacherRecord record

/-- Generic filler strategy appended by the fallback until the two-strategy
minimum is met. -/
def fallbackFillerStrategy : String :=
  "Ask for quick feedback from your teacher on one recent assignment."

/-- Default next-step goal of the fallback when no usable class goal exists. -/
def fallbackDefaultGoal : String :=
  "Choose one focus area and practice it three times this week."

/-- The `strengths` local of `buildFallbackStudentInsights`: analyzer
strengths, or a fixed statement when empty. -/
def fallbackStrengthSource (analysis : StudentAnalysis) : List String :=
  if analysis.strengths.length > 0 then analysis.strengths
  else ["You're making steady progress across your classes."]

/-- The `improvementAreas` local of `buildFallbackStudentInsights`. -/
def fallbackImprovementAreas (analysis : StudentAnalysis) : List String :=
  if analysis.improvementAreas.length > 0 then analysis.improvementAreas.take 2
  else ["Keep building consistency with assignments and review routines."]

/-- Signal-guarded strategy candidates of `buildFallbackStudentInsights`, the
`push` calls in source order. -/
def fallbackBaseStrategies (analysis : StudentAnalysis) : List String :=
  (if analysis.metrics.assignmentCompletionRate < 85 then
      ["Use a checklist and finish assignments 24 hours before the deadline."] else []) ++
  (if analysis.metrics.participationScore ≤ 6 then
      ["Prepare one question or comment before class and share it."] else []) ++
  (if analysis.metrics.averageScore < 75 then
      ["Set a 20-minute daily review block and summarize notes in your own words."] else []) ++
  (if analysis.metrics.lowestSubjects.length > 0 then
      ["Spend extra practice time on " ++
          ", ".intercalate (analysis.metrics.lowestSubjects.map (fun g => g.subject)) ++
          " with short, focused sessions."] else [])

/-- Teacher-preferred strategies with blank entries filtered out
(`preferences?.preferredStrategies?.filter((item) => item.trim()) ?? []`). -/
def fallbackPreferred (preferences : Option TeacherPreferences) : List String :=
  ((preferences.bind (fun p => p.preferredStrategies)).getD []).filter
    (fun item => jsTrim item ≠ "")

/-- The strategies list after the preference `forEach` loop, which appends a
preferred strategy only while fewer than three exist. -/
def fallbackWithPreferred (analysis : StudentAnalysis)
    (preferences : Option TeacherPreferences) : List String :=
  (fallbackPreferred preferences).foldl
    (fun acc item => if acc.length < 3 then acc ++ [item] else acc)
    (fallbackBaseStrategies analysis)

/-- The `strategies` local after the `while` loop that pads with the filler
statement until the two-strategy minimum is met. -/
def fallbackStrategies (analysis : StudentAnalysis)
    (preferences : Option TeacherPreferences) : List String :=
  if (fallbackWithPreferred analysis preferences).length < 2 then
    fallbackWithPreferred analysis preferences ++
      List.replicate (2 - (fallbackWithPreferred analysis preferences).length)
        fallbackFillerStrategy
  else fallbackWithPreferred analysis preferences

/-- The `goal` local: first class goal, trimmed, when non-blank
(`preferences?.classGoals?.[0]?.trim() || default`). -/
def fallbackGoal (preferences : Option TeacherPreferences) : String :=
  match preferences.bind (fun p => p.classGoals) with
  | some (g :: _) => if jsTrim g = "" then fallbackDefaultGoal else jsTrim g
  | _ => fallbackDefaultGoal

/-- Embedding of `buildFallbackStudentInsights` from insights.ts, assembled
from the locals above exactly as the returned object literal does. -/
def buildFallbackStudentInsights (analysis : StudentAnalysis)
    (preferences : Option TeacherPreferences) : StudentInsights :=
  { positiveObservation := (fallbackStrengthSource analysis).headD ""
    strengths := (fallbackStrengthSource analysis).take 3
    improvementAreas := fallbackImprovementAreas analysis
    strategies := (fallbackStrategies analysis preferences).take 3
    nextStepGoal := fallbackGoal preferences
    encouragement := "Small steps add up—keep going, and reach out if you need support." }

/-- Membership in a conditional singleton forces equality with its element. -/
theorem mem_of_ite_singleton {c : Prop} [Decidable c] {x a : String}
    (h : x ∈ (if c then [a] else ([] : List String))) : x = a := by
  split at h
  · simpa using h
  · simp at h

/-- A list containing a non-whitespace character does not trim to nil. -/
theorem trimChars_ne_nil {cs : List Char} {c : Char} (hc : c ∈ cs)
    (hsp : isSpaceChar c = false) : trimChars cs ≠ [] := by
  intro h
  unfold trimChars at h
  rw [List.reverse_eq_nil_iff, List.dropWhile_eq_nil_iff] at h
  have hsplit := List.takeWhile_append_dropWhile (p := isSpaceChar) (l := cs)
  have hmem : c ∈ cs.takeWhile isSpaceChar ∨ c ∈ cs.dropWhile isSpaceChar := by
    rw [← hsplit] at hc
    exact List.mem_append.mp hc
  rcases hmem with h1 | h2
  · have := List.mem_takeWhile_imp h1
    simp [hsp] at this
  · have := h c (List.mem_reverse.mpr h2)
    simp [hsp] at this

/-- Characterization of the empty trim result on strings. -/
theorem jsTrim_eq_empty_iff (s : String) : jsTrim s = "" ↔ trimChars s.data = [] := by
  constructor
  · intro h
    have := congrArg String.data h
    simpa [jsTrim] using this
  · intro h
    show (⟨trimChars s.data⟩ : String) = ⟨[]⟩
    rw [h]

/-- A string whose characters include a non-whitespace one trims non-empty. -/
theorem jsTrim_ne_empty_of_mem {s : String} {c : Char} (hc : c ∈ s.data)
    (hsp : isSpaceChar c = false) : jsTrim s ≠ "" := by
  rw [Ne, jsTrim_eq_empty_iff]
  exact trimChars_ne_nil hc hsp

/-- The element surviving at the head of a `dropWhile` fails the test. -/
theorem dropWhile_head_false {p : Char → Bool} :
    ∀ {l : List Char} {x : Char} {xs : List Char}, l.dropWhile p = x :: xs → p x = false := by
  intro l
  induction l with
  | nil => intro x xs h; simp at h
  | cons a t ih =>
    intro x xs h
    rw [List.dropWhile_cons] at h
    split at h
    · exact ih h
    · cases h
      simp_all

/-- The first character of a non-empty trim result is not whitespace. -/
theorem trimChars_head_not_space {cs : List Char} {x : Char} {xs : List Char}
    (h : trimChars cs = x :: xs) : isSpaceChar x = false := by
  unfold trimChars at h
  have hsfx : (cs.dropWhile isSpaceChar).reverse.dropWhile isSpaceChar <:+
      (cs.dropWhile isSpaceChar).reverse :=
    ⟨(cs.dropWhile isSpaceChar).reverse.takeWhile isSpaceChar,
      List.takeWhile_append_dropWhile _ _⟩
  have hpfx : ((cs.dropWhile isSpaceChar).reverse.dropWhile isSpaceChar).reverse <+:
      cs.dropWhile isSpaceChar := by
    have := Iff.mpr List.reverse_prefix hsfx
    rwa [List.reverse_reverse] at this
  rcases hpfx with ⟨t, ht⟩
  rw [h] at ht
  have hX : cs.dropWhile isSpaceChar = x :: (xs ++ t) := by
    rw [← ht]
    simp
  exact dropWhile_head_false hX

/-- Trim results made of whitespace only are empty. -/
theorem trimChars_eq_nil_of_all_space {cs : List Char}
    (h : ∀ c ∈ trimChars cs, isSpaceChar c = true) : trimChars cs = [] := by
  cases hc : trimChars cs with
  | nil => rfl
  | cons x xs =>
    have h1 := trimChars_head_not_space hc
    have h2 := h x (by rw [hc]; exact List.mem_cons_self x xs)
    simp [h1] at h2

/-- Trimming yields nil exactly when every character is whitespace. -/
theorem trimChars_eq_nil_iff {cs : List Char} :
    trimChars cs = [] ↔ ∀ c ∈ cs, isSpaceChar c = true := by
  constructor
  · intro h c hc
    by_contra hsp
    exact trimChars_ne_nil hc (by simpa using hsp) h
  · intro h
    unfold trimChars
    have hd : cs.dropWhile isSpaceChar = [] :=
      List.dropWhile_eq_nil_iff.mpr (fun x hx => by simp [h x hx])
    simp [hd]

/-- Trimming an already-trimmed non-blank string stays non-blank. -/
theorem jsTrim_jsTrim_ne_empty {s : String} (h : jsTrim s ≠ "") : jsTrim (jsTrim s) ≠ "" := by
  intro h2
  apply h
  rw [jsTrim_eq_empty_iff] at h2 ⊢
  have h3 : trimChars (trimChars s.data) = [] := h2
  exact trimChars_eq_nil_of_all_space (trimChars_eq_nil_iff.mp h3)

/-- The `headD` of a non-empty list is a member. -/
theorem headD_mem_of_ne_nil {l : List String} (h : l ≠ []) : l.headD "" ∈ l := by
  cases l with
  | nil => exact absurd rfl h
  | cons a t => simp

/-- Structural contract that `parseStudentInsights` enforces on accepted
values: the three string fields are non-blank after trim, the three arrays
hold non-blank strings and have lengths in [1,3], [1,2] and [2,3]. -/
def studentInsightsContract (v : StudentInsights) : Prop :=
  jsTrim v.positiveObservation ≠ "" ∧
  jsTrim v.nextStepGoal ≠ "" ∧
  jsTrim v.encouragement ≠ "" ∧
  (1 ≤ v.strengths.length ∧ v.strengths.length ≤ 3) ∧
  (1 ≤ v.improvementAreas.length ∧ v.improvementAreas.length ≤ 2) ∧
  (2 ≤ v.strategies.length ∧ v.strategies.length ≤ 3) ∧
  (∀ x ∈ v.strengths, jsTrim x ≠ "") ∧
  (∀ x ∈ v.improvementAreas, jsTrim x ≠ "") ∧
  (∀ x ∈ v.strategies, jsTrim x ≠ "")

/-- The strength source of the fallback is never empty. -/
theorem fallbackStrengthSource_ne_nil (analysis : StudentAnalysis) :
    fallbackStrengthSource analysis ≠ [] := by
  unfold fallbackStrengthSource
  split
  · exact List.length_pos.mp (by assumption)
  · simp

/-- Strength-source entries are non-blank when the analyzer strengths are. -/
theorem fallbackStrengthSource_trim (analysis : StudentAnalysis)
    (hs : ∀ x ∈ analysis.strengths, jsTrim x ≠ "") :
    ∀ x ∈ fallbackStrengthSource analysis, jsTrim x ≠ "" := by
  intro x hx
  unfold fallbackStrengthSource at hx
  split at hx
  · exact hs x hx
  · simp at hx
    subst hx
    decide

/-- The fallback improvement areas have between one and two entries. -/
theorem fallbackImprovementAreas_bounds (analysis : StudentAnalysis) :
    1 ≤ (fallbackImprovementAreas analysis).length ∧
      (fallbackImprovementAreas analysis).length ≤ 2 := by
  unfold fallbackImprovementAreas
  split
  · next h =>
    rw [List.length_take]
    omega
  · simp

/-- Fallback improvement entries are non-blank when the analyzer ones are. -/
theorem fallbackImprovementAreas_trim (analysis : StudentAnalysis)
    (hi : ∀ x ∈ analysis.improvementAreas, jsTrim x ≠ "") :
    ∀ x ∈ fallbackImprovementAreas analysis, jsTrim x ≠ "" := by
  intro x hx
  unfold fallbackImprovementAreas at hx
  split at hx
  · exact hi x (List.take_subset _ _ hx)
  · simp at hx
    subst hx
    decide

/-- Every signal-guarded base strategy is a non-blank statement. -/
theorem fallbackBaseStrategies_trim (analysis : StudentAnalysis) :
    ∀ x ∈ fallbackBaseStrategies analysis, jsTrim x ≠ "" := by
  intro x hx
  unfold fallbackBaseStrategies at hx
  simp only [List.mem_append] at hx
  rcases hx with ((h | h) | h) | h
  · rw [mem_of_ite_singleton h]; decide
  · rw [mem_of_ite_singleton h]; decide
  · rw [mem_of_ite_singleton h]; decide
  · rw [mem_of_ite_singleton h]
    refine jsTrim_ne_empty_of_mem (c := 'S') ?_ (by decide)
    rw [String.data_append, String.data_append]
    exact List.mem_append_left _ (List.mem_append_left _ (by decide))

/-- Preferred strategies survive the blank filter non-blank. -/
theorem fallbackPreferred_trim (preferences : Option TeacherPreferences) :
    ∀ x ∈ fallbackPreferred preferences, jsTrim x ≠ "" := by
  intro x hx
  unfold fallbackPreferred at hx
  have h2 := (List.mem_filter.mp hx).2
  simpa using h2

/-- Elements produced by the capped-append fold come from the base list or
from the folded items. -/
theorem mem_foldl_capped_append {items : List String} :
    ∀ {base : List String} {x : String},
      x ∈ items.foldl (fun acc item => if acc.length < 3 then acc ++ [item] else acc) base →
      x ∈ base ∨ x ∈ items := by
  induction items with
  | nil =>
    intro base x h
    simp_all
  | cons i rest ih =>
    intro base x h
    simp only [List.foldl_cons] at h
    rcases ih h with h1 | h2
    · by_cases hlen : base.length < 3
      · rw [if_pos hlen] at h1
        rcases List.mem_append.mp h1 with h3 | h3
        · exact Or.inl h3
        · simp at h3
          subst h3
          exact Or.inr (List.mem_cons_self _ _)
      · rw [if_neg hlen] at h1
        exact Or.inl h1
    · exact Or.inr (List.mem_cons_of_mem _ h2)

/-- Every fallback strategy is a non-blank statement. -/
theorem fallbackStrategies_trim (analysis : StudentAnalysis)
    (preferences : Option TeacherPreferences) :
    ∀ x ∈ fallbackStrategies analysis preferences, jsTrim x ≠ "" := by
  have base : ∀ x ∈ fallbackWithPreferred analysis preferences, jsTrim x ≠ "" := by
    intro x hx
    rcases mem_foldl_capped_append hx with h1 | h1
    · exact fallbackBaseStrategies_trim analysis x h1
    · exact fallbackPreferred_trim preferences x h1
  intro x hx
  unfold fallbackStrategies at hx
  split at hx
  · rcases List.mem_append.mp hx with h | h
    · exact base x h
    · rw [List.eq_of_mem_replicate h]
      decide
  · exact base x hx

/-- The fallback always carries at least two strategies. -/
theorem fallbackStrategies_min_len (analysis : StudentAnalysis)
    (preferences : Option TeacherPreferences) :
    2 ≤ (fallbackStrategies analysis preferences).length := by
  unfold fallbackStrategies
  split
  · next h =>
    rw [List.length_append, List.length_replicate]
    omega
  · next h => omega

/-- The fallback next-step goal is always non-blank after trim. -/
theorem fallbackGoal_trim_ne (preferences : Option TeacherPreferences) :
    jsTrim (fallbackGoal preferences) ≠ "" := by
  unfold fallbackGoal
  cases preferences.bind (fun p => p.classGoals) with
  | none => decide
  | some gs =>
    cases gs with
    | nil => decide
    | cons g t =>
      show jsTrim (if jsTrim g = "" then fallbackDefaultGoal else jsTrim g) ≠ ""
      by_cases hg : jsTrim g = ""
      · rw [if_pos hg]
        decide
      · rw [if_neg hg]
        exact jsTrim_jsTrim_ne_empty hg

/-- The fallback insight meets the parser contract whenever the analysis
carries only non-blank strength and improvement statements. -/
theorem fallback_contract_of_clean (analysis : StudentAnalysis)
    (preferences : Option TeacherPreferences)
    (hs : ∀ x ∈ analysis.strengths, jsTrim x ≠ "")
    (hi : ∀ x ∈ analysis.improvementAreas, jsTrim x ≠ "") :
    studentInsightsContract (buildFallbackStudentInsights analysis preferences) := by
  have hsrc := fallbackStrengthSource_ne_nil analysis
  have hsrcTrim := fallbackStrengthSource_trim analysis hs
  refine ⟨?_, ?_, ?_, ?_, ?_, ?_, ?_, ?_, ?_⟩
  · exact hsrcTrim _ (headD_mem_of_ne_nil hsrc)
  · exact fallbackGoal_trim_ne preferences
  · show jsTrim "Small steps add up—keep going, and reach out if you need support." ≠ ""
    decide
  · show 1 ≤ ((fallbackStrengthSource analysis).take 3).length ∧
        ((fallbackStrengthSource analysis).take 3).length ≤ 3
    rw [List.length_take]
    have : 0 < (fallbackStrengthSource analysis).length := List.length_pos.mpr hsrc
    omega
  · exact fallbackImprovementAreas_bounds analysis
  · show 2 ≤ ((fallbackStrategies analysis preferences).take 3).length ∧
        ((fallbackStrategies analysis preferences).take 3).length ≤ 3
    rw [List.length_take]
    have := fallbackStrategies_min_len analysis preferences
    omega
  · intro x hx
    exact hsrcTrim x (List.take_subset _ _ hx)
  · exact fallbackImprovementAreas_trim analysis hi
  · intro x hx
    exact fallbackStrategies_trim analysis preferences x (List.take_subset _ _ hx)

/-- Analyzer strength statements are always non-blank. -/
theorem studentStrengthList_trim (avg : ℚ) (s : Student) :
    ∀ x ∈ studentStrengthList avg s, jsTrim x ≠ "" := by
  intro x hx
  unfold studentStrengthList at hx
  simp only [List.mem_append] at hx
  rcases hx with ((h | h) | h) | h <;> rw [mem_of_ite_singleton h] <;> decide

/-- Analyzer improvement statements are always non-blank. -/
theorem studentImprovementList_trim (avg : ℚ) (low : List Grade) (s : Student) :
    ∀ x ∈ studentImprovementList avg low s, jsTrim x ≠ "" := by
  intro x hx
  unfold studentImprovementList at hx
  simp only [List.mem_append] at hx
  rcases hx with (((h | h) | h) | h) | h
  · rw [mem_of_ite_singleton h]; decide
  · rw [mem_of_ite_singleton h]; decide
  · rw [mem_of_ite_singleton h]; decide
  · rw [mem_of_ite_singleton h]; decide
  · rw [mem_of_ite_singleton h]
    refine jsTrim_ne_empty_of_mem (c := 'F') ?_ (by decide)
    rw [String.data_append]
    exact List.mem_append_left _ (by decide)

/-- C2: for every analyzed student and optional teacher preferences, the
fallback insight satisfies the same structural contract `parseStudentInsights`
enforces — non-blank required strings, strengths in [1,3], improvement areas
in [1,2], strategies in [2,3], every array element non-blank — so the fallback
path can never fail the downstream contract on required-field or array-length
grounds. -/
theorem buildFallbackStudentInsights_meets_contract (s : Student)
    (preferences : Option TeacherPreferences) :
    studentInsightsContract (buildFallbackStudentInsights (analyzeStudent s) preferences) := by
  apply fallback_contract_of_clean
  · intro x hx
    exact studentStrengthList_trim _ s x hx
  · intro x hx
    exact studentImprovementList_trim _ _ s x hx

/-- Compact memory event record (`MemoryEntry` in memory_store.ts). -/
structure MemoryEntry where
  date : String
  note : String
  deriving DecidableEq, Repr

/-- Per-student memory snapshot (`StudentMemory` in memory_store.ts). -/
structure StudentMemory where
  studentId : String
  summary : String
  strengths : List String
  improvementAreas : List String
  goals : List String
  lastUpdated : String
  history : List MemoryEntry
  deriving DecidableEq, Repr

/-- Embedding of `DEFAULT_STUDENT_MEMORY` from memory_store.ts. -/
def DEFAULT_STUDENT_MEMORY : StudentMemory :=
  { studentId := ""
    summary := ""
    strengths := []
    improvementAreas := []
    goals := []
    lastUpdated := ""
    history := [] }

/-- Loop of `uniqueList` (memory_store.ts): skip items already seen, push the
rest, and stop as soon as the result reaches `maxLen` entries.  The
accumulator is kept reversed. -/
def uniqueListAux (maxLen : Nat) : List String → List String → List String
  | acc, [] => acc.reverse
  | acc, item :: rest =>
    if item ∈ acc then uniqueListAux maxLen acc rest
    else if maxLen ≤ acc.length + 1 then (item :: acc).reverse
    else uniqueListAux maxLen (item :: acc) rest

/-- Embedding of `uniqueList` from memory_store.ts: trim, drop blanks,
deduplicate preserving first occurrence, cap at `maxLen`. -/
def uniqueList (items : List String) (maxLen : Nat) : List String :=
  uniqueListAux maxLen [] ((items.map jsTrim).filter (fun s => s ≠ ""))

/-- Embedding of `trimHistory` from memory_store.ts. -/
def trimHistory (entries : List MemoryEntry) (limit : Nat) : List MemoryEntry :=
  if limit ≤ 0 then [] else entries.take limit

/-- The history entry prepended by `updateStudentMemory`. -/
def studentHistoryEntry (now : String) (insights : StudentInsights) : MemoryEntry :=
  { date := now
    note := "Focus: " ++ "; ".intercalate insights.improvementAreas ++
      " | Goal: " ++ insights.nextStepGoal }

/-- Embedding of `updateStudentMemory` from memory_store.ts.  The timestamp
`new Date().toISOString()` is passed in as `now`. -/
def updateStudentMemory (previous : StudentMemory) (student : Student)
    (insights : StudentInsights) (historyLimit : Nat) (now : String) : StudentMemory :=
  { studentId := student.id
    summary := insights.positiveObservation ++ " " ++ ("Goal: " ++ insights.nextStepGoal)
    strengths := uniqueList (insights.positiveObservation :: insights.strengths) 3
    improvementAreas := uniqueList insights.improvementAreas 3
    goals := uniqueList (insights.nextStepGoal :: previous.goals) 3
    lastUpdated := now
    history := trimHistory (studentHistoryEntry now insights :: previous.history) historyLimit }

/-- The unique-list loop never exceeds its cap when entered below it. -/
theorem uniqueListAux_length_le (maxLen : Nat) :
    ∀ (items acc : List String), acc.length < maxLen →
      (uniqueListAux maxLen acc items).length ≤ maxLen := by
  intro items
  induction items with
  | nil =>
    intro acc h
    simpa [uniqueListAux] using Nat.le_of_lt h
  | cons item rest ih =>
    intro acc h
    unfold uniqueListAux
    split
    · exact ih acc h
    · split
      · simpa using h
      · next h2 => exact ih (item :: acc) (by simp; omega)

/-- The unique-list loop preserves freedom from duplicates. -/
theorem uniqueListAux_nodup (maxLen : Nat) :
    ∀ (items acc : List String), acc.Nodup →
      (uniqueListAux maxLen acc items).Nodup := by
  intro items
  induction items with
  | nil =>
    intro acc h
    simpa [uniqueListAux] using h
  | cons item rest ih =>
    intro acc h
    unfold uniqueListAux
    split
    · exact ih acc h
    · next hmem =>
      split
      · rw [List.nodup_reverse]
        exact List.nodup_cons.mpr ⟨hmem, h⟩
      · exact ih (item :: acc) (List.nodup_cons.mpr ⟨hmem, h⟩)

/-- The unique-list loop output is the reversed accumulator followed by an
order-preserving selection (sublist) of the remaining items. -/
theorem uniqueListAux_structure (maxLen : Nat) :
    ∀ (items acc : List String), ∃ t,
      uniqueListAux maxLen acc items = acc.reverse ++ t ∧ List.Sublist t items := by
  intro items
  induction items with
  | nil =>
    intro acc
    exact ⟨[], by simp [uniqueListAux], List.Sublist.refl []⟩
  | cons item rest ih =>
    intro acc
    unfold uniqueListAux
    split
    · rcases ih acc with ⟨t, ht, hsub⟩
      exact ⟨t, ht, List.Sublist.cons item hsub⟩
    · split
      · exact ⟨[item], by simp, List.Sublist.cons₂ item (List.nil_sublist rest)⟩
      · rcases ih (item :: acc) with ⟨t, ht, hsub⟩
        refine ⟨item :: t, ?_, List.Sublist.cons₂ item hsub⟩
        rw [ht]
        simp

/-- Cap, dedup and order-preservation of `uniqueList` at a positive cap. -/
theorem uniqueList_spec (items : List String) (maxLen : Nat) (h : 0 < maxLen) :
    (uniqueList items maxLen).length ≤ maxLen ∧ (uniqueList items maxLen).Nodup ∧
      List.Sublist (uniqueList items maxLen)
        ((items.map jsTrim).filter (fun s => s ≠ "")) := by
  refine ⟨uniqueListAux_length_le maxLen _ [] (by simpa using h),
    uniqueListAux_nodup maxLen _ [] List.nodup_nil, ?_⟩
  rcases uniqueListAux_structure maxLen ((items.map jsTrim).filter (fun s => s ≠ "")) [] with
    ⟨t, ht, hsub⟩
  unfold uniqueList
  rw [ht]
  simpa using hsub

/-- At natural-number limits, `trimHistory` just truncates the list. -/
theorem trimHistory_eq_take (entries : List MemoryEntry) (limit : Nat) :
    trimHistory entries limit = entries.take limit := by
  unfold trimHistory
  split
  · next h =>
    have : limit = 0 := by omega
    simp [this]
  · rfl

/-- C4: `updateStudentMemory` caps history at `historyLimit` with the new
entry first (the history equals the new entry prepended to the previous
history, truncated), and each of strengths, improvement areas and goals has
at most 3 entries, no duplicates, and preserves first-occurrence order (it is
an order-preserving sublist of the cleaned input).  Because the bound holds
for every `previous`, repeated sequential updates never grow history past the
limit. -/
theorem updateStudentMemory_bounded (previous : StudentMemory) (student : Student)
    (insights : StudentInsights) (historyLimit : Nat) (now : String) :
    (updateStudentMemory previous student insights historyLimit now).history =
      (studentHistoryEntry now insights :: previous.history).take historyLimit ∧
    (updateStudentMemory previous student insights historyLimit now).history.length ≤
      historyLimit ∧
    ((updateStudentMemory previous student insights historyLimit now).strengths.length ≤ 3 ∧
      (updateStudentMemory previous student insights historyLimit now).strengths.Nodup ∧
      List.Sublist (updateStudentMemory previous student insights historyLimit now).strengths
        (((insights.positiveObservation :: insights.strengths).map jsTrim).filter
          (fun s => s ≠ ""))) ∧
    ((updateStudentMemory previous student insights historyLimit now).improvementAreas.length
        ≤ 3 ∧
      (updateStudentMemory previous student insights historyLimit now).improvementAreas.Nodup ∧
      List.Sublist
        (updateStudentMemory previous student insights historyLimit now).improvementAreas
        ((insights.improvementAreas.map jsTrim).filter (fun s => s ≠ ""))) ∧
    ((updateStudentMemory previous student insights historyLimit now).goals.length ≤ 3 ∧
      (updateStudentMemory previous student insights historyLimit now).goals.Nodup ∧
      List.Sublist (updateStudentMemory previous student insights historyLimit now).goals
        (((insights.nextStepGoal :: previous.goals).map jsTrim).filter (fun s => s ≠ ""))) := by
  refine ⟨?_, ?_, ?_, ?_, ?_⟩
  · show trimHistory _ historyLimit = _
    exact trimHistory_eq_take _ historyLimit
  · show (trimHistory _ historyLimit).length ≤ historyLimit
    rw [trimHistory_eq_take, List.length_take]
    omega
  · exact uniqueList_spec _ 3 (by omega)
  · exact uniqueList_spec _ 3 (by omega)
  · exact uniqueList_spec _ 3 (by omega)

/-- Fields actually present in a student memory JSON file: files are
user-editable, may be incomplete, and may record any `studentId`. -/
structure StudentMemoryFileData where
  studentId : Option String
  summary : Option String
  strengths : Option (List String)
  improvementAreas : Option (List String)
  goals : Option (List String)
  lastUpdated : Option String
  history : Option (List MemoryEntry)
  deriving DecidableEq, Repr

/-- Outcome of reading `memory/students/{id}.json`: the `Deno.errors.NotFound`
branch, any other read or `JSON.parse` failure (both caught), or parsed
content. -/
inductive MemoryLoadOutcome where
  | notFound
  | readFailed
  | found (data : StudentMemoryFileData)
  deriving DecidableEq, Repr

/-- The spread merge `{ ...DEFAULT_STUDENT_MEMORY, ...parsed, studentId }` of
`loadStudentMemory`: parsed fields override defaults field by field, and the
trailing `studentId` key overrides whatever id the file recorded. -/
def mergeStudentMemory (data : StudentMemoryFileData) (studentId : String) : StudentMemory :=
  { studentId := studentId
    summary := data.summary.getD DEFAULT_STUDENT_MEMORY.summary
    strengths := data.strengths.getD DEFAULT_STUDENT_MEMORY.strengths
    improvementAreas := data.improvementAreas.getD DEFAULT_STUDENT_MEMORY.improvementAreas
    goals := data.goals.getD DEFAULT_STUDENT_MEMORY.goals
    lastUpdated := data.lastUpdated.getD DEFAULT_STUDENT_MEMORY.lastUpdated
    history := data.history.getD DEFAULT_STUDENT_MEMORY.history }

/-- Embedding of `loadStudentMemory` from memory_store.ts over the three
read outcomes; every branch produces a structurally complete snapshot. -/
def loadStudentMemory (memoryDir : String) (studentId : String) :
    MemoryLoadOutcome → StudentMemory
  | MemoryLoadOutcome.found data => mergeStudentMemory data studentId
  | MemoryLoadOutcome.notFound => { DEFAULT_STUDENT_MEMORY with studentId := studentId }
  | MemoryLoadOutcome.readFailed => { DEFAULT_STUDENT_MEMORY with studentId := studentId }

/-- A parsed file carrying none of the memory fields. -/
def emptyStudentMemoryFile : StudentMemoryFileData :=
  { studentId := none
    summary := none
    strengths := none
    improvementAreas := none
    goals := none
    lastUpdated := none
    history := none }

/-- C9: `loadStudentMemory` always returns a structurally complete snapshot
whose `studentId` equals the requested id — for a missing file, an unreadable
or unparseable file, a file with no recognized fields, and even a file whose
recorded `studentId` differs (the trailing key in the merge wins); fields
missing from the file fall back to the defaults (lists to empty). -/
theorem loadStudentMemory_total_defaults (memoryDir studentId : String)
    (outcome : MemoryLoadOutcome) :
    (loadStudentMemory memoryDir studentId outcome).studentId = studentId ∧
    loadStudentMemory memoryDir studentId MemoryLoadOutcome.notFound =
      { DEFAULT_STUDENT_MEMORY with studentId := studentId } ∧
    loadStudentMemory memoryDir studentId MemoryLoadOutcome.readFailed =
      { DEFAULT_STUDENT_MEMORY with studentId := studentId } ∧
    loadStudentMemory memoryDir studentId (MemoryLoadOutcome.found emptyStudentMemoryFile) =
      { DEFAULT_STUDENT_MEMORY with studentId := studentId } ∧
    (∀ otherId : String,
      loadStudentMemory memoryDir studentId
          (MemoryLoadOutcome.found { emptyStudentMemoryFile with studentId := some otherId }) =
        { DEFAULT_STUDENT_MEMORY with studentId := studentId }) := by
  refine ⟨?_, rfl, rfl, rfl, fun otherId => rfl⟩
  cases outcome <;> rfl

/-- Total outcome of a validation: success, or failure with at least one
error message. -/
def totalOutcome {α : Type} (r : VResult α) : Prop :=
  r.isOk = true ∨ r.errorList ≠ []

/-- Student record validation always succeeds or reports errors. -/
theorem validateStudentRecord_total (record : List (String × Json)) :
    totalOutcome (validateStudentRecord record) := by
  unfold validateStudentRecord
  split
  · split
    · exact Or.inl rfl
    · exact Or.inr (by simp [VResult.errorList])
  · next hne =>
    refine Or.inr ?_
    show studentInsightErrors record ≠ []
    intro h0
    exact hne (by simp [h0])

/-- Teacher record validation always succeeds or reports errors. -/
theorem validateTeacherRecord_total (record : List (String × Json)) :
    totalOutcome (validateTeacherRecord record) := by
  unfold validateTeacherRecord
  split
  · split
    · exact Or.inl rfl
    · exact Or.inr (by simp [VResult.errorList])
  · next hne =>
    refine Or.inr ?_
    show teacherInsightErrors record ≠ []
    intro h0
    exact hne (by simp [h0])

/-- C8: both parsers are total for every raw string and every behaviour of
the runtime JSON parser (including strings with no braces, with the last
closing brace at or before the first opening brace, and unparseable
candidates): the result is a success value or a failure carrying a non-empty
error list — no input makes either function throw or return an empty
failure. -/
theorem parseInsights_total (raw : String) (jsonParse : String → Option Json) :
    totalOutcome (parseStudentInsights raw jsonParse) ∧
      totalOutcome (parseTeacherInsights raw jsonParse) := by
  constructor
  · rcases hex : extractJsonObject raw with _ | c
    · have heq : parseStudentInsights raw jsonParse =
          VResult.err ["No JSON object found in response"] := by
        unfold parseStudentInsights
        simp only [hex]
      rw [heq]
      exact Or.inr (by simp [VResult.errorList])
    · rcases hp : jsonParse c with _ | v
      · have heq : parseStudentInsights raw jsonParse =
            VResult.err ["Invalid JSON in response"] := by
          unfold parseStudentInsights
          simp only [hex, hp]
        rw [heq]
        exact Or.inr (by simp [VResult.errorList])
      · rcases hf : jsObjectFields v with _ | record
        · have heq : parseStudentInsights raw jsonParse =
              VResult.err ["Response JSON must be an object"] := by
            unfold parseStudentInsights
            simp only [hex, hp, hf]
          rw [heq]
          exact Or.inr (by simp [VResult.errorList])
        · have heq : parseStudentInsights raw jsonParse = validateStudentRecord record := by
            unfold parseStudentInsights
            simp only [hex, hp, hf]
          rw [heq]
          exact validateStudentRecord_total record
  · rcases hex : extractJsonObject raw with _ | c
    · have heq : parseTeacherInsights raw jsonParse =
          VResult.err ["No JSON object found in response"] := by
        unfold parseTeacherInsights
        simp only [hex]
      rw [heq]
      exact Or.inr (by simp [VResult.errorList])
    · rcases hp : jsonParse c with _ | v
      · have heq : parseTeacherInsights raw jsonParse =
            VResult.err ["Invalid JSON in response"] := by
          unfold parseTeacherInsights
          simp only [hex, hp]
        rw [heq]
        exact Or.inr (by simp [VResult.errorList])
      · rcases hf : jsObjectFields v with _ | record
        · have heq : parseTeacherInsights raw jsonParse =
              VResult.err ["Response JSON must be an object"] := by
            unfold parseTeacherInsights
            simp only [hex, hp, hf]
          rw [heq]
          exact Or.inr (by simp [VResult.errorList])
        · have heq : parseTeacherInsights raw jsonParse = validateTeacherRecord record := by
            unfold parseTeacherInsights
            simp only [hex, hp, hf]
          rw [heq]
          exact validateTeacherRecord_total record

/-- A message among the accumulated field errors surfaces in the final
result of the student record validation. -/
theorem validateStudentRecord_err_mem {record : List (String × Json)} {e : String}
    (he : e ∈ studentInsightErrors record) :
    e ∈ (validateStudentRecord record).errorList := by
  unfold validateStudentRecord
  split
  · next hempty =>
    have hnil : studentInsightErrors record = [] := by simpa using hempty
    rw [hnil] at he
    simp at he
  · exact he

/-- C6: whenever the extracted JSON substring parses to an object, the student
parser accumulates violations across all fields before returning: its failure
list contains the corresponding message for each of the six required fields
that is missing or invalid, not merely the first violation encountered. -/
theorem parseStudentInsights_accumulates (raw : String) (jsonParse : String → Option Json)
    (v : Json) (record : List (String × Json)) (c : String)
    (hextract : extractJsonObject raw = some c)
    (hparse : jsonParse c = some v)
    (hfields : jsObjectFields v = some record) :
    ((safeString (getField record "positiveObservation") 220).isNone →
      "positiveObservation must be a non-empty string" ∈
        (parseStudentInsights raw jsonParse).errorList) ∧
    ((safeString (getField record "nextStepGoal") 200).isNone →
      "nextStepGoal must be a non-empty string" ∈
        (parseStudentInsights raw jsonParse).errorList) ∧
    ((safeString (getField record "encouragement") 200).isNone →
      "encouragement must be a non-empty string" ∈
        (parseStudentInsights raw jsonParse).errorList) ∧
    (∀ e ∈ (normalizeStringArray (getField record "strengths") 1 3 "strengths").errorList,
      e ∈ (parseStudentInsights raw jsonParse).errorList) ∧
    (∀ e ∈ (normalizeStringArray (getField record "improvementAreas") 1 2
        "improvementAreas").errorList,
      e ∈ (parseStudentInsights raw jsonParse).errorList) ∧
    (∀ e ∈ (normalizeStringArray (getField record "strategies") 2 3 "strategies").errorList,
      e ∈ (parseStudentInsights raw jsonParse).errorList) := by
  have hps : parseStudentInsights raw jsonParse = validateStudentRecord record := by
    unfold parseStudentInsights
    simp only [hextract, hparse, hfields]
  rw [hps]
  refine ⟨?_, ?_, ?_, ?_, ?_, ?_⟩
  · intro hpo
    apply validateStudentRecord_err_mem
    simp [studentInsightErrors, hpo]
  · intro hgoal
    apply validateStudentRecord_err_mem
    simp [studentInsightErrors, hgoal]
  · intro henc
    apply validateStudentRecord_err_mem
    simp [studentInsightErrors, henc]
  · intro e he
    apply validateStudentRecord_err_mem
    simp only [studentInsightErrors, List.mem_append]
    tauto
  · intro e he
    apply validateStudentRecord_err_mem
    simp only [studentInsightErrors, List.mem_append]
    tauto
  · intro e he
    apply validateStudentRecord_err_mem
    simp only [studentInsightErrors, List.mem_append]
    tauto

/-- JSON oracle that parses any candidate as the empty object. -/
def emptyObjectParse : String → Option Json :=
  fun _ => some (Json.obj [])

/-- Witness for C6: on the raw string `"{}"` parsed as an empty object, all
six required-field messages appear together in the failure list. -/
theorem parseStudentInsights_accumulates_holds :
    "positiveObservation must be a non-empty string" ∈
        (parseStudentInsights "{}" emptyObjectParse).errorList ∧
      "nextStepGoal must be a non-empty string" ∈
        (parseStudentInsights "{}" emptyObjectParse).errorList ∧
      "encouragement must be a non-empty string" ∈
        (parseStudentInsights "{}" emptyObjectParse).errorList ∧
      "strengths must be an array" ∈ (parseStudentInsights "{}" emptyObjectParse).errorList ∧
      "improvementAreas must be an array" ∈
        (parseStudentInsights "{}" emptyObjectParse).errorList ∧
      "strategies must be an array" ∈ (parseStudentInsights "{}" emptyObjectParse).errorList := by
  have h := parseStudentInsights_accumulates "{}" emptyObjectParse (Json.obj []) [] "{}"
    rfl rfl rfl
  exact ⟨h.1 rfl, h.2.1 rfl, h.2.2.1 rfl,
    h.2.2.2.1 _ (by decide), h.2.2.2.2.1 _ (by decide), h.2.2.2.2.2 _ (by decide)⟩

/-- Observable orchestration events of one `runOnce` cycle
(run_with_tool.ts): audit rows, memory writes, and run status updates. -/
inductive RunEvent where
  | startRun (runId : String) (studentCount validCount : Nat)
  | analyzed (studentId : String)
  | enriched (studentId : String)
  | studentRow (studentId : String) (status : String) (usedFallback : Bool)
  | memorySaved (studentId : String)
  | archiveSaved (runId studentId : String)
  | teacherEnriched
  | teacherRow (status : String) (usedFallback : Bool)
  | teacherMemorySaved
  | teacherArchiveSaved (runId : String)
  | finishRun (runId : String) (status : String)
  deriving DecidableEq, Repr

/-- Per-item stage of `runOnce`: the deterministic analysis (total on a
validated Student), then the try block whose only uncaught throw point is the
enrichment call — the stores and the email sink catch their own errors.  A
throw short-circuits the item to an `insights_failed` audit row; otherwise the
contract check picks the parsed value or the fallback, and the item ends with
a `sent` row, a memory save and an archive write. -/
def processStudent (runId : String) (jsonParse : String → Option Json)
    (prefs : Option TeacherPreferences) (enrich : Student → Except String String)
    (student : Student) : List RunEvent :=
  match enrich student with
  | Except.error _ =>
    [RunEvent.analyzed student.id,
     RunEvent.studentRow student.id "insights_failed" false]
  | Except.ok raw =>
    let parsed := parseStudentInsights raw jsonParse
    [RunEvent.analyzed student.id,
     RunEvent.enriched student.id,
     RunEvent.studentRow student.id "sent" (!parsed.isOk),
     RunEvent.memorySaved student.id,
     RunEvent.archiveSaved runId student.id]

/-- Group-level stage of `runOnce`: the try block around the teacher summary,
memory load and enrichment call.  A throw anywhere in it is caught and
recorded as a `summary_failed` teacher row; on success the stage records a
`sent` row (with the fallback flag from the contract check) and writes
teacher memory and archive. -/
def teacherStage (runId : String) (jsonParse : String → Option Json)
    (teacherEnrich : Except String String) : List RunEvent :=
  match teacherEnrich with
  | Except.error _ => [RunEvent.teacherRow "summary_failed" false]
  | Except.ok raw =>
    let parsed := parseTeacherInsights raw jsonParse
    [RunEvent.teacherEnriched,
     RunEvent.teacherRow "sent" (!parsed.isOk),
     RunEvent.teacherMemorySaved,
     RunEvent.teacherArchiveSaved runId]

/-- Embedding of the control flow of `runOnce` (run_with_tool.ts): start the
run record, short-circuit to `no_valid_students` on an empty valid list,
process each item in order, short-circuit to `no_successful_analyses` when no
analysis succeeded, otherwise run the group stage and finish `completed`
regardless of the group stage's outcome.  External effects are oracles; the
returned string is the run id. -/
def runOnce (runId : String) (totalCount : Nat) (students : List Student)
    (enrich : Student → Except String String) (teacherEnrich : Except String String)
    (jsonParse : String → Option Json) (prefs : Option TeacherPreferences) :
    List RunEvent × String :=
  let startEvents := [RunEvent.startRun runId totalCount students.length]
  if students.length = 0 then
    (startEvents ++ [RunEvent.finishRun runId "no_valid_students"], runId)
  else
    let itemEvents := (students.map (processStudent runId jsonParse prefs enrich)).flatten
    let analyses := students.map analyzeStudent
    if analyses.length = 0 then
      (startEvents ++ itemEvents ++ [RunEvent.finishRun runId "no_successful_analyses"], runId)
    else
      (startEvents ++ itemEvents ++ teacherStage runId jsonParse teacherEnrich ++
        [RunEvent.finishRun runId "completed"], runId)

/-- C5: with zero valid students in the batch, `runOnce` performs no
analysis, no enrichment, no per-item audit write and no group-level stage:
the run record is opened and immediately finished with the terminal status
string `no_valid_students` (the spec's `no_valid_items`), and nothing else
happens. -/
theorem runOnce_no_valid_students (runId : String) (totalCount : Nat)
    (enrich : Student → Except String String) (teacherEnrich : Except String String)
    (jsonParse : String → Option Json) (prefs : Option TeacherPreferences) :
    runOnce runId totalCount [] enrich teacherEnrich jsonParse prefs =
      ([RunEvent.startRun runId totalCount 0,
        RunEvent.finishRun runId "no_valid_students"], runId) := rfl

/-- C7: when at least one item was analyzed successfully and the group-level
(teacher summary) stage throws, `runOnce` records a group outcome row with
failure status `summary_failed` and still finishes the run with terminal
status `completed` — the group-level failure does not change the terminal
status. -/
theorem runOnce_group_failure_still_completed (runId : String) (totalCount : Nat)
    (s : Student) (rest : List Student) (errMsg : String)
    (enrich : Student → Except String String) (jsonParse : String → Option Json)
    (prefs : Option TeacherPreferences) :
    RunEvent.teacherRow "summary_failed" false ∈
        (runOnce runId totalCount (s :: rest) enrich (Except.error errMsg) jsonParse
          prefs).1 ∧
      (runOnce runId totalCount (s :: rest) enrich (Except.error errMsg) jsonParse
          prefs).1.getLast? =
        some (RunEvent.finishRun runId "completed") := by
  have heq : (runOnce runId totalCount (s :: rest) enrich (Except.error errMsg) jsonParse
      prefs).1 =
      ([RunEvent.startRun runId totalCount (s :: rest).length] ++
          ((s :: rest).map (processStudent runId jsonParse prefs enrich)).flatten ++
          [RunEvent.teacherRow "summary_failed" false]) ++
        [RunEvent.finishRun runId "completed"] := by
    unfold runOnce teacherStage
    simp
  constructor
  · rw [heq]
    simp
  · rw [heq]
    exact List.getLast?_concat _

/-- Response of the analyze endpoint (`AnalyzeResponse` of
packages/shared-types plus the HTTP status code used by the handler). -/
structure AnalyzeResponse where
  runId : String
  status : String
  httpStatus : Nat
  deriving DecidableEq, Repr

/-- In-memory server state of http_server.ts (`state` in `main`): the
single-flight flag and the id of the last completed run.  `lastRunId` is
assigned only after `await runOnce(...)` resolves. -/
structure AnalyzeState where
  running : Bool
  lastRunId : Option String
  deriving DecidableEq, Repr

/-- The busy rejection of `handleAnalyze`: HTTP 409 with
`state.lastRunId ?? "unknown"` and status `"running"`. -/
def busyResponse (state : AnalyzeState) : AnalyzeResponse :=
  { runId := state.lastRunId.getD "unknown", status := "running", httpStatus := 409 }

/-- Entry phase of `handleAnalyze` up to the `await runOnce`: a request while
`state.running` holds is answered immediately with the busy rejection and no
run starts (`runOnce` is never reached, `inl`); otherwise the flag is set and
the run begins (`inr`). -/
def handleAnalyzeEntry (state : AnalyzeState) : Sum AnalyzeResponse AnalyzeState :=
  if state.running then Sum.inl (busyResponse state)
  else Sum.inr { state with running := true }

/-- Completion phase of `handleAnalyze` once `runOnce` resolves with `runId`:
only now is `lastRunId` assigned; the `finally` clears the flag. -/
def handleAnalyzeFinish (state : AnalyzeState) (runId : String) :
    AnalyzeResponse × AnalyzeState :=
  ({ runId := runId, status := "completed", httpStatus := 200 },
   { running := false, lastRunId := some runId })

/-- Error completion of `handleAnalyze` when `runOnce` threw: HTTP 500 with
`state.lastRunId ?? "unknown"`; the `finally` clears the flag. -/
def handleAnalyzeFinishErr (state : AnalyzeState) : AnalyzeResponse × AnalyzeState :=
  ({ runId := state.lastRunId.getD "unknown", status := "failed", httpStatus := 500 },
   { state with running := false })

/-- Counterexample for C3: from a fresh server, a first request passes the
guard and its execution `runOnce` with id "run-a" is in flight (its id reaches the
state only at the completion phase); a second request arriving before
completion is rejected with HTTP 409, but the response reports "unknown" —
not the identity "run-a" of the run currently in flight. -/
theorem singleFlight_busy_reports_stale_id :
    handleAnalyzeEntry { running := false, lastRunId := none } =
      Sum.inr { running := true, lastRunId := none } ∧
    handleAnalyzeEntry { running := true, lastRunId := none } =
      Sum.inl { runId := "unknown", status := "running", httpStatus := 409 } ∧
    (runOnce "run-a" 1 [sampleDecliningStudent] (fun _ => Except.ok "")
        (Except.ok "") (fun _ => none) none).2 = "run-a" ∧
    "unknown" ≠ "run-a" := by
  refine ⟨rfl, rfl, rfl, by decide⟩

/-- C3 amended: while a run is in flight, the guard rejects a second request
immediately with HTTP 409 and status "running" and starts no second
execution (control never reaches `runOnce`); the reported run id is
`lastRunId ?? "unknown"` — the most recently completed run, or "unknown" when
none has completed — rather than the in-flight run's id. -/
theorem singleFlight_guard_rejects (state : AnalyzeState) (h : state.running = true) :
    handleAnalyzeEntry state =
      Sum.inl { runId := state.lastRunId.getD "unknown"
                status := "running"
                httpStatus := 409 } := by
  unfold handleAnalyzeEntry busyResponse
  rw [h]
  simp

/-- Witness for the amended C3 theorem at a concrete busy state. -/
theorem singleFlight_guard_rejects_holds :
    ({ running := true, lastRunId := some "run-1" } : AnalyzeState).running = true ∧
      handleAnalyzeEntry { running := true, lastRunId := some "run-1" } =
        Sum.inl { runId := "run-1", status := "running", httpStatus := 409 } :=
  ⟨rfl, singleFlight_guard_rejects { running := true, lastRunId := some "run-1" } rfl⟩

/-- Witness for C2 at a concrete analyzed student with no preferences. -/
theorem buildFallbackStudentInsights_meets_contract_holds :
    studentInsightsContract
      (buildFallbackStudentInsights (analyzeStudent sampleDecliningStudent) none) :=
  buildFallbackStudentInsights_meets_contract sampleDecliningStudent none
